import Mathlib

/-!
Verification of the SCIM gateway (identity bridge between the Alice IdP and
LaunchDarkly).  The definitions below are a shallow embedding of the
TypeScript source:

* `src/mapping/transformer.ts`  — role/email translation (`transformAliceUserToLdUser`,
  `deriveCustomRoles`, `extractCustomRolesFromAliceUser`);
* `src/scim/server/users.controller.ts` — the request handlers
  (`createUser`, `listUsers`, `patchUser`, `deleteUser`,
  `transformLdResponseToAliceResponse`, `handleError`);
* `src/scim/client/launchdarkly.ts` — the outbound client (`request`);
* `src/auth/token-manager.ts` — the OAuth2 token manager (`getAccessToken`,
  `forceRefresh`), embedded as a state machine over the JS event loop;
* `src/db/index.ts` — the SQLite schema of the `user_mappings` table.

JavaScript truthiness (`if (x)` on strings treats `""` and `undefined` as
false, `||` defaulting) is modelled explicitly where the source relies on it.
-/

namespace ScimGateway

/-- JS truthiness of an optional string: `undefined`, `null` and `""` are falsy. -/
def strTruthy : Option String → Bool
  | none => false
  | some s => !(s == ("" : String))

/-- `x || d` for an optional string operand (JS: empty string falls back to the default). -/
def jsOrStr (x : Option String) (d : String) : String :=
  match x with
  | none => d
  | some s => if s == ("" : String) then d else s

/-- `aliceUser.externalId || null`: a missing or empty string becomes `null`. -/
def jsOrNull (x : Option String) : Option String :=
  if strTruthy x then x else none

/-- SCIM `name` complex attribute (the transformer copies only these two fields). -/
structure ScimName where
  givenName : Option String
  familyName : Option String
deriving DecidableEq, Repr

/-- SCIM e-mail attribute (`{value, primary?, type?}`). -/
structure ScimEmail where
  value : String
  primary : Option Bool
  type : Option String
deriving DecidableEq, Repr

/-- SCIM `roles[]` entry: `{value, type?}`. -/
structure ScimRole where
  value : String
  type : Option String
deriving DecidableEq, Repr

/-- Inbound SCIM core user (the fields read by the gateway).  `userName` is
required by the TypeScript type but may be absent at runtime, so it is an
`Option` here, as are all optional fields. -/
structure ScimCoreUser where
  userName : Option String
  externalId : Option String
  name : Option ScimName
  active : Option Bool
  emails : Option (List ScimEmail)
  roles : Option (List ScimRole)
deriving DecidableEq, Repr

/-- LaunchDarkly built-in base roles. -/
inductive LdBuiltInRole where
  | reader | writer | admin | no_access
deriving DecidableEq, Repr

/-- One role-mapping rule from the YAML config: Alice role value →
LD custom-role keys. -/
structure RoleMapping where
  aliceRole : String
  ldCustomRoles : List String
deriving DecidableEq, Repr

/-- Mapping configuration: ordered rule list plus the default base role. -/
structure MappingConfig where
  roleMappings : List RoleMapping
  defaultRole : LdBuiltInRole
deriving DecidableEq, Repr

/-- LaunchDarkly SCIM extension attributes (`role` / `customRole`). -/
structure LdScimExtension where
  role : Option LdBuiltInRole
  customRole : Option (List String)
deriving DecidableEq, Repr

/-- The LD extension schema URN (`LD_SCIM_EXTENSION_SCHEMA` in the source). -/
def ldExtensionSchema : String :=
  "urn:ietf:params:scim:schemas:extension:launchdarkly:2.0:User"

/-- Payload sent to LaunchDarkly when creating/replacing a user
(`LdScimUserCreatePayload`). -/
structure LdScimUserCreatePayload where
  emails : List ScimEmail
  userName : Option String
  active : Bool
  name : Option ScimName
  externalId : Option String
  ext : LdScimExtension
deriving DecidableEq, Repr

/-- JS `Set` insertion: append the element unless already present
(preserves first-insertion order, as `Array.from(set)` does). -/
def setInsert (acc : List String) (x : String) : List String :=
  if x ∈ acc then acc else acc ++ [x]

/-- Insert every element of `l` into the accumulator, in order. -/
def setInsertAll (acc : List String) (l : List String) : List String :=
  l.foldl setInsert acc

/-- `deriveCustomRoles` (transformer.ts): for each Alice role look up the
first matching rule and add its LD custom roles to a `Set`; unmatched roles
are ignored. -/
def deriveCustomRoles (aliceRoles : List ScimRole) (config : MappingConfig) : List String :=
  aliceRoles.foldl
    (fun acc r =>
      match config.roleMappings.find? (fun m => m.aliceRole == r.value) with
      | some m => setInsertAll acc m.ldCustomRoles
      | none => acc)
    []

/-- `extractCustomRolesFromAliceUser` (transformer.ts). -/
def extractCustomRolesFromAliceUser (aliceUser : ScimCoreUser) (config : MappingConfig) :
    List String :=
  deriveCustomRoles (aliceUser.roles.getD []) config

/-- The LD extension built by `transformAliceUserToLdUser`: custom roles when
any matched, otherwise the default base role. -/
def buildLdExtension (customRoles : List String) (config : MappingConfig) : LdScimExtension :=
  if customRoles.length > 0 then
    { role := none, customRole := some customRoles }
  else
    { role := some config.defaultRole, customRole := none }

/-- The e-mail list built by `transformAliceUserToLdUser`: carry through the
provided e-mails (defaulting `type` to `work`), otherwise synthesize one from
`userName`; `none` when neither is available (the TS code throws). -/
def buildLdEmails (aliceUser : ScimCoreUser) : Option (List ScimEmail) :=
  match aliceUser.emails with
  | some es =>
    if es.length > 0 then
      some (es.map fun e =>
        { value := e.value, primary := e.primary, type := some (jsOrStr e.type ("work")) })
    else if strTruthy aliceUser.userName then
      some [{ value := aliceUser.userName.getD (""), primary := some true,
              type := some ("work") }]
    else none
  | none =>
    if strTruthy aliceUser.userName then
      some [{ value := aliceUser.userName.getD (""), primary := some true,
              type := some ("work") }]
    else none

/-- The message of the error thrown when neither e-mails nor a username are
available. -/
def noEmailErrorMsg : String :=
  "User must have either emails array or userName (which will be used as email)"

/-- `transformAliceUserToLdUser` (transformer.ts): translate an Alice SCIM
user to the LD create payload; `Except.error` models the thrown `Error`. -/
def transformAliceUserToLdUser (aliceUser : ScimCoreUser) (config : MappingConfig) :
    Except String LdScimUserCreatePayload :=
  let customRoles := deriveCustomRoles (aliceUser.roles.getD []) config
  let ldExtension := buildLdExtension customRoles config
  match buildLdEmails aliceUser with
  | none => Except.error noEmailErrorMsg
  | some emails =>
    Except.ok
      { emails := emails
        userName := aliceUser.userName
        active := aliceUser.active.getD true
        name := aliceUser.name.map (fun n => { givenName := n.givenName, familyName := n.familyName })
        externalId := jsOrNull aliceUser.externalId
        ext := ldExtension }

/-- A role value matches some configured rule (any rule at all). -/
def roleMatchesAnyRule (config : MappingConfig) (r : ScimRole) : Bool :=
  (config.roleMappings.find? (fun m => m.aliceRole == r.value)).isSome

/-- A role value matches a configured rule that carries at least one
downstream custom role. -/
def roleMatchesNonEmptyRule (config : MappingConfig) (r : ScimRole) : Bool :=
  match config.roleMappings.find? (fun m => m.aliceRole == r.value) with
  | some m => !m.ldCustomRoles.isEmpty
  | none => false

/-! ## Storage schema (src/db/index.ts) -/

/-- One column of the SQLite `CREATE TABLE` statement, with its uniqueness
constraint as declared in the schema. -/
structure SqlColumn where
  name : String
  unique : Bool
deriving DecidableEq, Repr

/-- The `user_mappings` table exactly as created by `initDatabase`
(src/db/index.ts, lines 24–38): only `id` (primary key) and `alice_id` carry
a uniqueness constraint; `alice_external_id` has a plain (non-unique) index. -/
def userMappingsColumns : List SqlColumn :=
  [ { name := "id", unique := true },
    { name := "alice_id", unique := true },
    { name := "alice_external_id", unique := false },
    { name := "ld_id", unique := false },
    { name := "ld_user_name", unique := false },
    { name := "created_at", unique := false },
    { name := "updated_at", unique := false } ]

/-- Whether the storage schema itself enforces uniqueness of the upstream
external id column. -/
def schemaEnforcesExternalIdUnique : Bool :=
  (userMappingsColumns.find? (fun c => c.name == ("alice_external_id" : String))).elim
    false (fun c => c.unique)

/-! ## Correlation store

`src/db/user-mapping.ts` is imported by the controller but its source is not
in the repository snapshot; its operations are modelled as the plain SQL
statements its names denote, executed against the `user_mappings` table whose
schema is in src/db/index.ts (which declares no unique constraint on
`alice_external_id`, so an insert is not rejected for a duplicate external
id). -/

/-- One row of `user_mappings` (timestamps omitted; no claim reads them). -/
structure UserMapping where
  aliceId : String
  aliceExternalId : Option String
  ldId : String
  ldUserName : String
deriving DecidableEq, Repr

/-- Modelled from the spec: `findByUpstreamExternalId` /
`getUserMappingByExternalId` — a `SELECT … WHERE alice_external_id = ?`
(SQL `NULL` never equals a value). -/
def getUserMappingByExternalId (st : List UserMapping) (ext : String) : Option UserMapping :=
  st.find? (fun m => m.aliceExternalId == some ext)

/-- Modelled from the spec: `findByInternalId` / `getUserMappingByAliceId` —
a `SELECT … WHERE alice_id = ?`. -/
def getUserMappingByAliceId (st : List UserMapping) (aliceId : String) : Option UserMapping :=
  st.find? (fun m => m.aliceId == aliceId)

/-- Modelled from the spec: `create` / `createUserMapping` — an `INSERT`; the
schema constrains `alice_id` (unique) but not `alice_external_id`, so the
insert succeeds regardless of duplicate external ids. -/
def createUserMapping (st : List UserMapping) (rec : UserMapping) : List UserMapping :=
  st ++ [rec]

/-- Modelled from the spec: `delete` / `deleteUserMapping` — a
`DELETE … WHERE alice_id = ?`. -/
def deleteUserMapping (st : List UserMapping) (aliceId : String) : List UserMapping :=
  st.filter (fun m => !(m.aliceId == aliceId))

/-- Modelled from the spec: `listAll` / `getAllUserMappings` — a `SELECT *`. -/
def getAllUserMappings (st : List UserMapping) : List UserMapping := st

/-- Number of records carrying a given upstream external id. -/
def countByExternalId (st : List UserMapping) (ext : String) : Nat :=
  (st.filter (fun m => m.aliceExternalId == some ext)).length

/-! ## Downstream responses and upstream response shaping -/

/-- Resource metadata of a downstream (LD) response. -/
structure LdMeta where
  created : Option String
  lastModified : Option String
deriving DecidableEq, Repr

/-- A user as returned by the LaunchDarkly SCIM API (`LdScimUserResponse`);
`ext` is the `urn:…:extension:launchdarkly:2.0:User` attribute. -/
structure LdScimUserResponse where
  id : String
  externalId : Option String
  userName : String
  name : Option ScimName
  active : Option Bool
  meta : Option LdMeta
  ext : Option LdScimExtension
deriving DecidableEq, Repr

/-- `meta` of the response returned to Alice. -/
structure AliceMeta where
  resourceType : String
  location : String
  created : Option String
  lastModified : Option String
deriving DecidableEq, Repr

/-- The SCIM user response body returned to Alice. -/
structure AliceScimUser where
  id : String
  externalId : Option String
  userName : String
  name : Option ScimName
  active : Option Bool
  roles : List ScimRole
  meta : AliceMeta
deriving DecidableEq, Repr

/-- `transformLdResponseToAliceResponse` (users.controller.ts, lines 302–332):
substitute the gateway-generated `aliceId` for the resource id, surface the LD
custom roles as informational `roles[]` entries, and build `meta.location`
from `aliceId`. -/
def transformLdResponseToAliceResponse (ldUser : LdScimUserResponse) (aliceId : String)
    (baseUrl : String) : AliceScimUser :=
  let roles :=
    match ldUser.ext with
    | some e =>
      match e.customRole with
      | some rs => rs.map (fun role => { value := role, type := some ("launchdarkly") })
      | none => []
    | none => []
  { id := aliceId
    externalId := ldUser.externalId
    userName := ldUser.userName
    name := ldUser.name
    active := ldUser.active
    roles := roles
    meta :=
      { resourceType := "User"
        location := baseUrl ++ ("/Users/") ++ aliceId
        created := ldUser.meta.bind (fun m => m.created)
        lastModified := ldUser.meta.bind (fun m => m.lastModified) } }

/-! ## Error handling (handleError, users.controller.ts lines 337–347) -/

/-- Errors reaching the controller's catch blocks: a typed `LdScimError`
carrying the downstream status, or any other thrown `Error`. -/
inductive AppError where
  | ldScim (status : Nat) (detail : String)
  | generic (message : String)
deriving DecidableEq, Repr

/-- SCIM error body built by `createScimError` (schemas/core.ts). -/
structure ScimErrorBody where
  status : String
  detail : String
  scimType : Option String
deriving DecidableEq, Repr

/-- `createScimError` (schemas/core.ts, lines 180–191). -/
def createScimError (status : Nat) (detail : String) (scimType : Option String) :
    ScimErrorBody :=
  { status := toString status, detail := detail, scimType := scimType }

/-- `handleError`: an `LdScimError` keeps its own status; every other error
becomes a 500. -/
def handleError (e : AppError) : Nat × ScimErrorBody :=
  match e with
  | .ldScim status detail => (status, createScimError status detail none)
  | .generic message => (500, createScimError 500 message none)

/-! ## POST /Users (createUser, users.controller.ts lines 32–99)

The handler: (1) if the request carries a truthy `externalId` already present
in the store, answer 409 without any outbound call; (2) otherwise search LD by
`userName` (one outbound call); if found, link the existing LD user (insert a
correlation record, optionally one more outbound call to push roles) and
answer 201; (3) otherwise translate the user — a translation failure
propagates to `handleError` — create the LD user (second outbound call),
insert a correlation record and answer 201.  The duplicate-external-id check
(step 1) and the insert (steps 2/3) are separated by `await`ed network calls,
so they are *not* atomic with respect to other concurrently handled requests:
`hasExternalIdConflict` below is exactly the step-1 check and
`createUserMapping` the later insert.  `freshId` stands for the generated
`uuidv4()`; `ldFind`/`ldCreate` are the downstream answers (both assumed
successful — downstream failures propagate via `handleError` and are not
needed by any claim). -/

/-- The application-level duplicate check at the top of `createUser`
(lines 39–46). -/
def hasExternalIdConflict (st : List UserMapping) (u : ScimCoreUser) : Bool :=
  strTruthy u.externalId &&
    (getUserMappingByExternalId st (u.externalId.getD (""))).isSome

/-- Outcome of a handler: HTTP status, resulting store, `Location` header,
response body, and the number of outbound downstream calls made. -/
structure CreateOutcome where
  status : Nat
  store : List UserMapping
  location : Option String
  body : Option AliceScimUser
  outboundCalls : Nat
deriving DecidableEq, Repr

def createUserHandler (st : List UserMapping) (u : ScimCoreUser) (cfg : MappingConfig)
    (freshId : String) (ldFind : Option LdScimUserResponse)
    (ldCreate : LdScimUserResponse) (baseUrl : String) : CreateOutcome :=
  if hasExternalIdConflict st u then
    { status := 409, store := st, location := none, body := none, outboundCalls := 0 }
  else
    match ldFind with
    | some existing =>
      let st2 := createUserMapping st
        { aliceId := freshId, aliceExternalId := jsOrNull u.externalId,
          ldId := existing.id, ldUserName := existing.userName }
      let customRoles := extractCustomRolesFromAliceUser u cfg
      { status := 201
        store := st2
        location := some (baseUrl ++ ("/Users/") ++ freshId)
        body := some (transformLdResponseToAliceResponse existing freshId baseUrl)
        outboundCalls := if customRoles.length > 0 then 2 else 1 }
    | none =>
      match transformAliceUserToLdUser u cfg with
      | .error msg =>
        { status := (handleError (.generic msg)).1, store := st, location := none,
          body := none, outboundCalls := 1 }
      | .ok _ =>
        let st2 := createUserMapping st
          { aliceId := freshId, aliceExternalId := jsOrNull u.externalId,
            ldId := ldCreate.id, ldUserName := ldCreate.userName }
        { status := 201
          store := st2
          location := some (baseUrl ++ ("/Users/") ++ freshId)
          body := some (transformLdResponseToAliceResponse ldCreate freshId baseUrl)
          outboundCalls := 2 }

/-! ## DELETE /Users/:id (deleteUser, users.controller.ts lines 264–295) -/

/-- Result of the downstream `DELETE` call: success, or an `LdScimError`
with a status and detail. -/
inductive LdDeleteResult where
  | ok
  | err (status : Nat) (detail : String)
deriving DecidableEq, Repr

/-- Outcome of the delete handler. -/
structure DeleteOutcome where
  status : Nat
  store : List UserMapping
  outboundCalls : Nat
deriving DecidableEq, Repr

/-- `deleteUser`: no correlation → idempotent 204 with no outbound call;
otherwise delete downstream — a 404 from LD is swallowed, any other error
rethrows (store untouched); only after a confirmed/absent downstream delete
is the correlation record removed. -/
def deleteUserHandler (st : List UserMapping) (aliceId : String)
    (ldDelete : LdDeleteResult) : DeleteOutcome :=
  match getUserMappingByAliceId st aliceId with
  | none => { status := 204, store := st, outboundCalls := 0 }
  | some _ =>
    match ldDelete with
    | .ok => { status := 204, store := deleteUserMapping st aliceId, outboundCalls := 1 }
    | .err s d =>
      if s == 404 then
        { status := 204, store := deleteUserMapping st aliceId, outboundCalls := 1 }
      else
        { status := (handleError (.ldScim s d)).1, store := st, outboundCalls := 1 }

/-! ## PATCH /Users/:id (patchUser, users.controller.ts lines 209–259) -/

/-- A JSON value appearing in a patch operation, as far as the handler
inspects it: an array of `{value}` role entries, the produced
`{customRole: […]}` object, a boolean, or an opaque value. -/
inductive PatchValue where
  | roleArr (roles : List String)
  | customRoleObj (customRole : List String)
  | boolVal (b : Bool)
  | otherVal (tag : String)
deriving DecidableEq, Repr

/-- A SCIM patch operation `{op, path?, value?}`. -/
structure PatchOp where
  op : String
  path : Option String
  value : Option PatchValue
deriving DecidableEq, Repr

/-- The custom-role list computed inside the `roles` branch of `patchUser`:
`Array.isArray(op.value) ? op.value : []`, then per entry
`find(…)?.ldCustomRoles || []`, flattened (no deduplication here, unlike
`deriveCustomRoles`). -/
def patchCustomRoles (cfg : MappingConfig) (value : Option PatchValue) : List String :=
  let roles :=
    match value with
    | some (.roleArr rs) => rs
    | _ => []
  (roles.map (fun r =>
    ((cfg.roleMappings.find? (fun m => m.aliceRole == r)).elim [] (fun m => m.ldCustomRoles)))).flatten

/-- The per-operation translation inside `patchUser` (lines 224–251):
`active` passes through, `roles` is rewritten to the LD extension path with
the mapped custom roles and the *same* `op` verb, anything else passes
through. -/
def translatePatchOp (cfg : MappingConfig) (op : PatchOp) : PatchOp :=
  if op.path == some ("active") then op
  else if op.path == some ("roles") then
    { op := op.op, path := some ldExtensionSchema,
      value := some (.customRoleObj (patchCustomRoles cfg op.value)) }
  else op

/-- The full operation list sent to LD by `patchUser`. -/
def translatePatchOps (cfg : MappingConfig) (ops : List PatchOp) : List PatchOp :=
  ops.map (translatePatchOp cfg)

/-! ## GET /Users (listUsers, users.controller.ts lines 125–172)

The filter is matched with `filter.match(/userName\s+eq\s+"([^"]+)"/i)`:
an unanchored, case-insensitive search.  The regex engine below is
specialized to that one pattern; greedy `\s+` runs and the greedy `[^"]+`
capture need no backtracking because the characters following them
(`e`, `"`) can never be consumed by the preceding class. -/

/-- The characters matched by JS `\s` that can appear in a filter string. -/
def isJsSpace (c : Char) : Bool :=
  c = ' ' || c = '\t' || c = '\n' || c = '\r' || c = '\x0b' || c = '\x0c'

/-- Case-insensitive literal match; returns the rest of the input. -/
def matchLit : List Char → List Char → Option (List Char)
  | [], rest => some rest
  | _ :: _, [] => none
  | l :: ls, c :: cs => if l.toLower = c.toLower then matchLit ls cs else none

/-- `\s+`: at least one whitespace character, consumed greedily. -/
def matchSpaces1 : List Char → Option (List Char)
  | [] => none
  | c :: cs => if isJsSpace c then some (cs.dropWhile isJsSpace) else none

/-- The literal `userName` of the pattern, as characters. -/
def userNameLit : List Char := ['u', 's', 'e', 'r', 'N', 'a', 'm', 'e']

/-- The literal `eq` of the pattern, as characters. -/
def eqLit : List Char := ['e', 'q']

/-- `"([^"]+)"`: an opening quote, a non-empty greedy run of non-quote
characters (the capture), and a closing quote. -/
def captureQuoted : List Char → Option (List Char)
  | '"' :: rest =>
    let cap := rest.takeWhile (fun c => !(c = '"'))
    match rest.drop cap.length with
    | '"' :: _ => if cap.isEmpty then none else some cap
    | _ => none
  | [] => none
  | _ :: _ => none

/-- Attempt the pattern `userName\s+eq\s+"([^"]+)"` at the start of the
input; returns the captured group. -/
def tryMatchAt (s : List Char) : Option (List Char) :=
  (matchLit userNameLit s).bind fun r1 =>
  (matchSpaces1 r1).bind fun r2 =>
  (matchLit eqLit r2).bind fun r3 =>
  (matchSpaces1 r3).bind fun r4 => captureQuoted r4

/-- Unanchored search (`String.prototype.match` semantics): try the pattern
at every position, left to right, returning the first capture. -/
def scimFilterSearch : List Char → Option (List Char)
  | [] => none
  | c :: cs =>
    match tryMatchAt (c :: cs) with
    | some cap => some cap
    | none => scimFilterSearch cs

/-- The filtering step of `listUsers` (lines 137–144): a recognized
`userName eq "<value>"` filter keeps the records whose cached LD username
equals the captured value; an absent filter — or one in which the pattern
does not occur — leaves the list unchanged. -/
def applyUserNameFilter (st : List UserMapping) (filter : Option (List Char)) :
    List UserMapping :=
  match filter with
  | none => st
  | some f =>
    match scimFilterSearch f with
    | some cap => st.filter (fun m => m.ldUserName == String.mk cap)
    | none => st

/-- Result of `listUsers` as sent to Alice. -/
structure ListOutcome where
  totalResults : Nat
  startIndex : Nat
  itemsPerPage : Nat
  resources : List AliceScimUser
deriving DecidableEq, Repr

/-- `listUsers`: filter, paginate with `slice(startIndex-1, startIndex-1+count)`,
fetch each page record from LD (`fetch` is the downstream oracle; a failed
fetch yields `none` and the record is dropped by `filter(Boolean)`), and
report `totalResults` as the length of the *filtered, unpaginated* list. -/
def listUsersHandler (st : List UserMapping) (filter : Option (List Char))
    (startIndex count : Nat) (fetch : String → Option LdScimUserResponse)
    (baseUrl : String) : ListOutcome :=
  let mappings := getAllUserMappings st
  let filteredMappings := applyUserNameFilter mappings filter
  let paginatedMappings := (filteredMappings.drop (startIndex - 1)).take count
  let resources := paginatedMappings.filterMap (fun m =>
    (fetch m.ldId).map (fun ldUser =>
      transformLdResponseToAliceResponse ldUser m.aliceId baseUrl))
  { totalResults := filteredMappings.length
    startIndex := startIndex
    itemsPerPage := paginatedMappings.length
    resources := resources }

/-! ## Outbound client (LaunchDarklyScimClient.request, launchdarkly.ts 45–90)

The method performs exactly one `fetch`; there is no retry loop and no
reference to `TokenManager.forceRefresh` anywhere in the client (the client
is constructed with a static `accessToken`).  A non-2xx status throws
`LdScimError` with that status.  `nextResponse n` is the response the n-th
fetch of this request would receive; the definition consumes only
`nextResponse 0`. -/

/-- An HTTP response from LD, as far as `request` inspects it: the status
and the `detail` field of the parsed JSON body (if any). -/
structure HttpResponse where
  status : Nat
  detail : Option String
deriving DecidableEq, Repr

/-- Result of one `request` call. -/
inductive ReqOutcome where
  | ok (status : Nat)
  | err (status : Nat) (detail : String)
deriving DecidableEq, Repr

/-- Trace of one `request` call: its outcome, how many fetches it issued and
how many times it invoked `TokenManager.forceRefresh`. -/
structure RequestTrace where
  result : ReqOutcome
  fetches : Nat
  forceRefreshCalls : Nat
deriving DecidableEq, Repr

/-- `request`: one fetch; 204 → no-content success; other 2xx → success;
anything else → `LdScimError(status, data?.detail || `HTTP ${status}`)`.
No retry, no token refresh. -/
def clientRequest (nextResponse : Nat → HttpResponse) : RequestTrace :=
  if (nextResponse 0).status == 204 then
    { result := .ok 204, fetches := 1, forceRefreshCalls := 0 }
  else if 200 ≤ (nextResponse 0).status ∧ (nextResponse 0).status ≤ 299 then
    { result := .ok (nextResponse 0).status, fetches := 1, forceRefreshCalls := 0 }
  else
    { result := .err (nextResponse 0).status
        (jsOrStr (nextResponse 0).detail (("HTTP ") ++ toString (nextResponse 0).status))
      fetches := 1, forceRefreshCalls := 0 }

/-! ## TokenManager (src/auth/token-manager.ts)

`getAccessToken` is embedded as a state machine over the single-threaded JS
event loop.  The synchronous prefix of `getAccessToken` — the cached-token
check, the `refreshPromise` check, and the assignment
`this.refreshPromise = this.refreshToken()` (whose body starts the network
call before its first `await`) — runs atomically between awaits, so each of
the three branches is one transition.  `TMStep.complete` is the resolution of
the in-flight refresh: it sets `accessToken`/`expiresAt` and resolves every
awaiting caller with the fetched token (a successful refresh; the claim under
verification concerns the success path).  `cachedOk` abbreviates
`accessToken && expiresAt && !isTokenExpiringSoon()`. -/

/-- Phase of one `getAccessToken` caller. -/
inductive CallerPhase where
  | start
  | waiting
  | done (token : String)
deriving DecidableEq, Repr

/-- State of the token manager together with its pending callers. -/
structure TMState where
  cachedOk : Bool
  cachedTok : String
  inflight : Bool
  fetches : Nat
  callers : List CallerPhase
deriving DecidableEq, Repr

/-- Resolve every awaiting caller with the fetched token. -/
def resolveWaiters (tok : String) : List CallerPhase → List CallerPhase :=
  List.map (fun p => match p with | .waiting => .done tok | x => x)

/-- One event-loop transition of the token manager; `fetchedTok` is the token
the OAuth2 endpoint returns. -/
inductive TMStep (fetchedTok : String) : TMState → TMState → Prop
  | runCached (s : TMState) (i : Nat) :
      s.callers.get? i = some .start → s.cachedOk = true →
      TMStep fetchedTok s { s with callers := s.callers.set i (.done s.cachedTok) }
  | runAwait (s : TMState) (i : Nat) :
      s.callers.get? i = some .start → s.cachedOk = false → s.inflight = true →
      TMStep fetchedTok s { s with callers := s.callers.set i .waiting }
  | runFresh (s : TMState) (i : Nat) :
      s.callers.get? i = some .start → s.cachedOk = false → s.inflight = false →
      TMStep fetchedTok s
        { s with inflight := true, fetches := s.fetches + 1,
                 callers := s.callers.set i .waiting }
  | complete (s : TMState) :
      s.inflight = true →
      TMStep fetchedTok s
        { s with inflight := false, cachedOk := true, cachedTok := fetchedTok,
                 callers := resolveWaiters fetchedTok s.callers }

/-- Initial state for the scenario of the claim: cache absent/expiring, no
refresh in flight, `n` concurrent callers about to run. -/
def tmInitial (n : Nat) : TMState :=
  { cachedOk := false, cachedTok := "", inflight := false, fetches := 0,
    callers := List.replicate n .start }

/-- Reachability under event-loop interleaving. -/
def tmReaches (fetchedTok : String) : TMState → TMState → Prop :=
  Relation.ReflTransGen (TMStep fetchedTok)

/-! # Theorems -/

/-- Invariant of the token-manager state machine: caller count is stable;
an in-flight refresh means exactly one fetch has been issued and the cache
is not yet valid; a valid cache means one fetch happened and it holds the
fetched token; before anything happens no fetch has been issued; a waiting
caller implies an in-flight refresh, and a finished caller always holds the
fetched token with the cache already valid. -/
def TMInv (tok : String) (n : Nat) (s : TMState) : Prop :=
  s.callers.length = n ∧
  (s.inflight = true → s.fetches = 1 ∧ s.cachedOk = false) ∧
  (s.cachedOk = true → s.fetches = 1 ∧ s.cachedTok = tok ∧ s.inflight = false) ∧
  (s.inflight = false → s.cachedOk = false → s.fetches = 0) ∧
  (∀ p ∈ s.callers,
     (p = CallerPhase.waiting → s.inflight = true) ∧
     (∀ t, p = CallerPhase.done t → t = tok ∧ s.cachedOk = true))

/-- The invariant holds initially. -/
theorem tmInv_init (tok : String) (n : Nat) : TMInv tok n (tmInitial n) := by
  unfold TMInv tmInitial
  refine ⟨List.length_replicate n _, ?_, ?_, ?_, ?_⟩
  · intro h
    cases h
  · intro h
    cases h
  · intro _ _
    rfl
  · intro p hp
    have hps := List.eq_of_mem_replicate hp
    subst hps
    constructor
    · intro hw
      cases hw
    · intro t ht
      cases ht

/-- The invariant is preserved by every event-loop transition. -/
theorem tmInv_step {tok : String} {n : Nat} {s s' : TMState}
    (h : TMInv tok n s) (hs : TMStep tok s s') : TMInv tok n s' := by
  obtain ⟨hlen, hinf, hcach, hzero, hcall⟩ := h
  cases hs with
  | runCached i hget hok =>
    refine ⟨by simpa using hlen, hinf, hcach, hzero, ?_⟩
    intro p hp
    rcases List.mem_or_eq_of_mem_set hp with hmem | rfl
    · exact hcall p hmem
    · constructor
      · intro hw
        cases hw
      · intro t ht
        injection ht with ht2
        subst ht2
        exact ⟨(hcach hok).2.1, hok⟩
  | runAwait i hget hok hin =>
    refine ⟨by simpa using hlen, hinf, hcach, hzero, ?_⟩
    intro p hp
    rcases List.mem_or_eq_of_mem_set hp with hmem | rfl
    · exact hcall p hmem
    · constructor
      · intro _
        exact hin
      · intro t ht
        cases ht
  | runFresh i hget hok hnin =>
    have hf0 : s.fetches = 0 := hzero hnin hok
    refine ⟨by simpa using hlen, ?_, ?_, ?_, ?_⟩
    · intro _
      refine ⟨?_, hok⟩
      show s.fetches + 1 = 1
      rw [hf0]
    · intro hcon
      have hcon2 : s.cachedOk = true := hcon
      rw [hok] at hcon2
      cases hcon2
    · intro hcon
      cases hcon
    · intro p hp
      rcases List.mem_or_eq_of_mem_set hp with hmem | rfl
      · constructor
        · intro _
          rfl
        · intro t ht
          have hc := (hcall p hmem).2 t ht
          rw [hok] at hc
          exact absurd hc.2 (by simp)
      · constructor
        · intro _
          rfl
        · intro t ht
          cases ht
  | complete hin =>
    refine ⟨by simpa [resolveWaiters] using hlen, ?_, ?_, ?_, ?_⟩
    · intro hcon
      cases hcon
    · intro _
      exact ⟨(hinf hin).1, rfl, rfl⟩
    · intro _ hcon
      cases hcon
    · intro p hp
      have hp2 : p ∈ List.map
          (fun q => match q with
            | CallerPhase.waiting => CallerPhase.done tok
            | x => x) s.callers := hp
      obtain ⟨q, hq, hfq⟩ := List.mem_map.mp hp2
      cases q with
      | start =>
        rw [show (match CallerPhase.start with
              | CallerPhase.waiting => CallerPhase.done tok
              | x => x) = CallerPhase.start from rfl] at hfq
        subst hfq
        constructor
        · intro hw
          cases hw
        · intro t ht
          cases ht
      | waiting =>
        rw [show (match CallerPhase.waiting with
              | CallerPhase.waiting => CallerPhase.done tok
              | x => x) = CallerPhase.done tok from rfl] at hfq
        subst hfq
        constructor
        · intro hw
          cases hw
        · intro t ht
          injection ht with ht2
          subst ht2
          exact ⟨rfl, rfl⟩
      | done t0 =>
        rw [show (match CallerPhase.done t0 with
              | CallerPhase.waiting => CallerPhase.done tok
              | x => x) = CallerPhase.done t0 from rfl] at hfq
        subst hfq
        constructor
        · intro hw
          cases hw
        · intro t ht
          injection ht with ht2
          subst ht2
          exact ⟨((hcall _ hq).2 t0 rfl).1, rfl⟩

/-- The invariant holds in every reachable state. -/
theorem tmInv_reaches {tok : String} {n : Nat} {s s' : TMState}
    (hr : tmReaches tok s s') (h : TMInv tok n s) : TMInv tok n s' := by
  induction hr with
  | refl => exact h
  | tail _ hstep ih => exact tmInv_step ih hstep

/-- C3: single-flight token refresh — starting from an absent/expiring cache
with `n ≥ 1` concurrent `getAccessToken` callers, in every event-loop
interleaving in which all callers have resolved, exactly one outbound
token-endpoint request was made and every caller resolved with the token
produced by that single refresh. -/
theorem C3_single_flight (n : Nat) (tok : String) (sF : TMState)
    (hn : 0 < n) (hr : tmReaches tok (tmInitial n) sF)
    (hdone : ∀ p ∈ sF.callers, ∃ t, p = CallerPhase.done t) :
    sF.fetches = 1 ∧ ∀ p ∈ sF.callers, p = CallerPhase.done tok := by
  obtain ⟨hlen, hinf, hcach, hzero, hcall⟩ := tmInv_reaches hr (tmInv_init tok n)
  obtain ⟨p0, hp0⟩ := List.exists_mem_of_length_pos (l := sF.callers) (by rw [hlen]; exact hn)
  obtain ⟨t0, ht0⟩ := hdone p0 hp0
  have h1 := (hcall p0 hp0).2 t0 ht0
  have hfet : sF.fetches = 1 := (hcach h1.2).1
  refine ⟨hfet, fun p hp => ?_⟩
  obtain ⟨t, ht⟩ := hdone p hp
  have h2 := (hcall p hp).2 t ht
  rw [ht, h2.1]

/-- C3 witness: a concrete interleaving of two concurrent callers — the
first starts the refresh, the second finds it in flight and awaits it, the
refresh completes — reaches a final state with one fetch and both callers
holding the fetched token, via the theorem. -/
theorem C3_single_flight_witness :
    ({ cachedOk := true, cachedTok := "tok", inflight := false, fetches := 1,
       callers := [CallerPhase.done ("tok"), CallerPhase.done ("tok")] } : TMState).fetches = 1 ∧
    ∀ p ∈ ({ cachedOk := true, cachedTok := "tok", inflight := false, fetches := 1,
             callers := [CallerPhase.done ("tok"), CallerPhase.done ("tok")] } : TMState).callers,
      p = CallerPhase.done ("tok") := by
  have h01 : TMStep ("tok") (tmInitial 2)
      { cachedOk := false, cachedTok := "", inflight := true, fetches := 1,
        callers := [CallerPhase.waiting, CallerPhase.start] } :=
    TMStep.runFresh _ 0 rfl rfl rfl
  have h12 : TMStep ("tok")
      { cachedOk := false, cachedTok := "", inflight := true, fetches := 1,
        callers := [CallerPhase.waiting, CallerPhase.start] }
      { cachedOk := false, cachedTok := "", inflight := true, fetches := 1,
        callers := [CallerPhase.waiting, CallerPhase.waiting] } :=
    TMStep.runAwait _ 1 rfl rfl rfl
  have h23 : TMStep ("tok")
      { cachedOk := false, cachedTok := "", inflight := true, fetches := 1,
        callers := [CallerPhase.waiting, CallerPhase.waiting] }
      { cachedOk := true, cachedTok := "tok", inflight := false, fetches := 1,
        callers := [CallerPhase.done ("tok"), CallerPhase.done ("tok")] } :=
    TMStep.complete _ rfl
  have hr : tmReaches ("tok") (tmInitial 2)
      { cachedOk := true, cachedTok := "tok", inflight := false, fetches := 1,
        callers := [CallerPhase.done ("tok"), CallerPhase.done ("tok")] } :=
    Relation.ReflTransGen.tail
      (Relation.ReflTransGen.tail
        (Relation.ReflTransGen.tail Relation.ReflTransGen.refl h01) h12) h23
  refine C3_single_flight 2 ("tok") _ (by norm_num) hr ?_
  intro p hp
  simp only [List.mem_cons, List.not_mem_nil, or_false] at hp
  rcases hp with rfl | rfl
  · exact ⟨("tok"), rfl⟩
  · exact ⟨("tok"), rfl⟩

/-- C2: the claim asserts that a 401 answer triggers one `forceRefresh()`
and exactly one retry of the same request.  The client's `request` method
performs exactly one fetch and never calls `forceRefresh`: on a 401 it
surfaces `LdScimError(401)` directly, so at a concrete 401 answer (with a
successful answer available for a retry that never happens) the trace shows
one fetch, zero `forceRefresh` calls, and a terminal 401 — refuting the
claimed single retry. -/
theorem C2_counterexample :
    let responses : Nat → HttpResponse :=
      fun n => if n = 0 then { status := 401, detail := none } else { status := 200, detail := none }
    (clientRequest responses).fetches = 1 ∧
    (clientRequest responses).forceRefreshCalls = 0 ∧
    (clientRequest responses).result = ReqOutcome.err 401 ("HTTP 401") ∧
    ¬((clientRequest responses).fetches = 2 ∧ (clientRequest responses).forceRefreshCalls = 1) := by
  decide

/-- C2 (amended): the client performs no authorization retry at all — every
`request` call issues exactly one outbound fetch and never invokes
`TokenManager.forceRefresh`; an authorization failure (401) is surfaced
to the caller immediately as a terminal `LdScimError` with status 401. -/
theorem C2_no_retry_on_401 (nextResponse : Nat → HttpResponse)
    (h : (nextResponse 0).status = 401) :
    (clientRequest nextResponse).fetches = 1 ∧
    (clientRequest nextResponse).forceRefreshCalls = 0 ∧
    (clientRequest nextResponse).result =
      ReqOutcome.err 401 (jsOrStr (nextResponse 0).detail ("HTTP 401")) := by
  unfold clientRequest
  rw [h]
  rw [if_neg (show ¬(((401 : Nat) == 204) = true) by decide),
      if_neg (show ¬(200 ≤ (401 : Nat) ∧ (401 : Nat) ≤ 299) by decide)]
  exact ⟨rfl, rfl, rfl⟩

/-- C2 witness: the amended theorem applied to a concrete 401 answer. -/
theorem C2_no_retry_on_401_witness :
    let responses : Nat → HttpResponse := fun _ => { status := 401, detail := some ("denied") }
    (clientRequest responses).fetches = 1 ∧
    (clientRequest responses).forceRefreshCalls = 0 ∧
    (clientRequest responses).result =
      ReqOutcome.err 401 (jsOrStr (some ("denied")) ("HTTP 401")) :=
  C2_no_retry_on_401 (fun _ => { status := 401, detail := some ("denied") }) rfl

/-- C5: `deleteUser` is idempotent and fail-safe: a missing correlation
answers 204 with no outbound call; with a correlation, exactly one
downstream delete is attempted — success or a downstream 404 remove the
correlation record and answer 204, while any other downstream error is
surfaced with the record left untouched, so the record is removed only once
the downstream delete is confirmed or the downstream record confirmed
absent. -/
theorem C5_delete_contract (st : List UserMapping) (aliceId : String) (r : LdDeleteResult) :
    (getUserMappingByAliceId st aliceId = none →
       deleteUserHandler st aliceId r =
         { status := 204, store := st, outboundCalls := 0 }) ∧
    (∀ m, getUserMappingByAliceId st aliceId = some m →
       (deleteUserHandler st aliceId r).outboundCalls = 1 ∧
       (r = LdDeleteResult.ok →
          deleteUserHandler st aliceId r =
            { status := 204, store := deleteUserMapping st aliceId, outboundCalls := 1 }) ∧
       (∀ d, r = LdDeleteResult.err 404 d →
          deleteUserHandler st aliceId r =
            { status := 204, store := deleteUserMapping st aliceId, outboundCalls := 1 }) ∧
       (∀ s d, r = LdDeleteResult.err s d → ¬s = 404 →
          deleteUserHandler st aliceId r =
            { status := s, store := st, outboundCalls := 1 })) := by
  constructor
  · intro h
    simp [deleteUserHandler, h]
  · intro m hm
    refine ⟨?_, ?_, ?_, ?_⟩
    · cases r with
      | ok => simp [deleteUserHandler, hm]
      | err s d =>
        by_cases h4 : s == 404 <;> simp [deleteUserHandler, hm, h4, handleError, createScimError]
    · rintro rfl
      simp [deleteUserHandler, hm]
    · rintro d rfl
      simp [deleteUserHandler, hm]
    · rintro s d rfl hne
      have h4 : (s == 404) = false := by simpa using hne
      simp [deleteUserHandler, hm, h4, handleError, createScimError]

/-- C5 witness: the contract applied to a store holding one record and a
downstream delete failing with a 500 — the record survives. -/
theorem C5_delete_contract_witness :
    let st : List UserMapping := [{ aliceId := "a1", aliceExternalId := none,
                                    ldId := "ld1", ldUserName := "u1" }]
    deleteUserHandler st ("a1") (LdDeleteResult.err 500 ("boom")) =
      { status := 500, store := st, outboundCalls := 1 } ∧
    deleteUserHandler [] ("a1") (LdDeleteResult.err 500 ("boom")) =
      { status := 204, store := [], outboundCalls := 0 } := by
  refine ⟨?_, ?_⟩
  · exact ((C5_delete_contract _ ("a1") (LdDeleteResult.err 500 ("boom"))).2
      { aliceId := "a1", aliceExternalId := none, ldId := "ld1", ldUserName := "u1" }
      (by decide)).2.2.2 500 ("boom") rfl (by decide)
  · exact (C5_delete_contract [] ("a1") (LdDeleteResult.err 500 ("boom"))).1 (by decide)

/-- C6: every response body shaped for Alice carries the gateway-generated
internal id as `id`, its `meta.location` (and the `Location` header emitted
by `createUser`) is built from that internal id, and the downstream
identifier influences neither: the shaped response is invariant under any
change of the downstream user's `id` field. -/
theorem C6_internal_id_only (ldUser : LdScimUserResponse) (did aliceId baseUrl : String)
    (st : List UserMapping) (u : ScimCoreUser) (cfg : MappingConfig) (freshId : String)
    (ldFind : Option LdScimUserResponse) (ldCreate : LdScimUserResponse) :
    (transformLdResponseToAliceResponse ldUser aliceId baseUrl).id = aliceId ∧
    (transformLdResponseToAliceResponse ldUser aliceId baseUrl).meta.location =
      baseUrl ++ ("/Users/") ++ aliceId ∧
    transformLdResponseToAliceResponse { ldUser with id := did } aliceId baseUrl =
      transformLdResponseToAliceResponse ldUser aliceId baseUrl ∧
    ((createUserHandler st u cfg freshId ldFind ldCreate baseUrl).location = none ∨
     (createUserHandler st u cfg freshId ldFind ldCreate baseUrl).location =
       some (baseUrl ++ ("/Users/") ++ freshId)) := by
  refine ⟨rfl, rfl, rfl, ?_⟩
  unfold createUserHandler
  by_cases hc : hasExternalIdConflict st u
  · simp [hc]
  · cases ldFind with
    | some existing => simp [hc]
    | none =>
      cases htr : transformAliceUserToLdUser u cfg with
      | error msg => simp [hc, htr]
      | ok p => simp [hc, htr]

/-- The canonical filter string `userName eq "<value>"`, as a character
sequence (the characters of `"userName eq \"" ++ v ++ "\""`). -/
def canonicalUserNameFilter (v : List Char) : List Char :=
  'u' :: 's' :: 'e' :: 'r' :: 'N' :: 'a' :: 'm' :: 'e' :: ' ' :: 'e' :: 'q' :: ' ' :: '"' ::
    (v ++ ['"'])

/-- `takeWhile` swallows a block of satisfying characters and stops at the
first failing one. -/
theorem takeWhile_append_escape (p : Char → Bool) (v : List Char) (x : Char)
    (hvp : ∀ c ∈ v, p c = true) (hx : p x = false) :
    (v ++ [x]).takeWhile p = v := by
  induction v with
  | nil => simp [List.takeWhile_cons, hx]
  | cons c cs ih =>
    have hc := hvp c (by simp)
    simp [List.takeWhile_cons, hc, ih (fun c' h' => hvp c' (by simp [h']))]

/-- The pattern succeeds at position 0 of the canonical filter, capturing
exactly the (non-empty, quote-free) value. -/
theorem tryMatchAt_canonical (v : List Char) (hv : ¬v = []) (hq : ∀ c ∈ v, ¬c = '"') :
    tryMatchAt (canonicalUserNameFilter v) = some v := by
  have hcap : (v ++ ['"']).takeWhile (fun c => !(c = '"')) = v := by
    refine takeWhile_append_escape _ v '"' (fun c hc => ?_) (by simp)
    simp [hq c hc]
  have hred : tryMatchAt (canonicalUserNameFilter v) =
      captureQuoted ('"' :: (v ++ ['"'])) := rfl
  rw [hred]
  simp only [captureQuoted]
  rw [hcap, List.drop_left]
  cases v with
  | nil => exact absurd rfl hv
  | cons hd tl => rfl

/-- The unanchored search finds the canonical pattern and returns its
capture. -/
theorem scimFilterSearch_canonical (v : List Char) (hv : ¬v = [])
    (hq : ∀ c ∈ v, ¬c = '"') :
    scimFilterSearch (canonicalUserNameFilter v) = some v := by
  have h := tryMatchAt_canonical v hv hq
  rw [show canonicalUserNameFilter v =
        'u' :: ('s' :: 'e' :: 'r' :: 'N' :: 'a' :: 'm' :: 'e' :: ' ' :: 'e' :: 'q' :: ' ' ::
          '"' :: (v ++ ['"'])) from rfl] at h ⊢
  simp only [scimFilterSearch, h]

/-- C7: the claim asserts that a filter string not of the recognized form
matches nothing (yields an empty result).  The code only *narrows* the list
when the pattern matches; an unrecognized filter leaves `filteredMappings`
equal to the full mapping list, so the result contains every record: with a
one-record store and the unrecognized filter `bogus`, the listing returns
that record rather than an empty set. -/
theorem C7_counterexample :
    scimFilterSearch (("bogus").data) = none ∧
    (listUsersHandler
      [{ aliceId := "a1", aliceExternalId := none, ldId := "ld1",
         ldUserName := "alice@example.com" }]
      (some (("bogus").data)) 1 100
      (fun _ => some { id := "ld1", externalId := none, userName := "alice@example.com",
                       name := none, active := none, meta := none, ext := none })
      ("/scim/v2")).totalResults = 1 ∧
    ¬(listUsersHandler
      [{ aliceId := "a1", aliceExternalId := none, ldId := "ld1",
         ldUserName := "alice@example.com" }]
      (some (("bogus").data)) 1 100
      (fun _ => some { id := "ld1", externalId := none, userName := "alice@example.com",
                       name := none, active := none, meta := none, ext := none })
      ("/scim/v2")).resources = [] := by
  refine ⟨by decide, by decide, by decide⟩

/-- C7 (amended): a filter of the recognized form `userName eq "<value>"`
(non-empty, quote-free value) selects exactly the correlation records whose
cached downstream username equals the value; a filter string in which the
pattern does not occur is ignored — the filtering step returns *all*
records, not none. -/
theorem C7_list_filter (st : List UserMapping) (v f : List Char)
    (hv : ¬v = []) (hq : ∀ c ∈ v, ¬c = '"') :
    scimFilterSearch (canonicalUserNameFilter v) = some v ∧
    applyUserNameFilter st (some (canonicalUserNameFilter v)) =
      st.filter (fun m => m.ldUserName == String.mk v) ∧
    (scimFilterSearch f = none → applyUserNameFilter st (some f) = st) := by
  have h := scimFilterSearch_canonical v hv hq
  refine ⟨h, ?_, ?_⟩
  · simp only [applyUserNameFilter, h]
  · intro hf
    simp only [applyUserNameFilter, hf]

/-- C7 witness: the amended theorem at the store
`[alice@example.com, bob@example.com]` and value `alice@example.com` — the
spec's own example selects exactly the one matching record. -/
theorem C7_list_filter_witness :
    applyUserNameFilter
      [{ aliceId := "a1", aliceExternalId := none, ldId := "ld1",
         ldUserName := "alice@example.com" },
       { aliceId := "a2", aliceExternalId := none, ldId := "ld2",
         ldUserName := "bob@example.com" }]
      (some (canonicalUserNameFilter (("alice@example.com").data))) =
      [{ aliceId := "a1", aliceExternalId := none, ldId := "ld1",
         ldUserName := "alice@example.com" }] := by
  have h := (C7_list_filter
    [{ aliceId := "a1", aliceExternalId := none, ldId := "ld1",
       ldUserName := "alice@example.com" },
     { aliceId := "a2", aliceExternalId := none, ldId := "ld2",
       ldUserName := "bob@example.com" }]
    (("alice@example.com").data) [] (by decide) (by decide)).2.1
  rw [h]
  decide

/-- C10: `totalResults` always equals the number of correlation records
matching the filter *before* pagination and before any downstream fetch —
it is independent of `startIndex`, `count` and the downstream oracle —
while `Resources` holds at most the requested page's successfully fetched
records, so `Resources` can never exceed `totalResults` and falls strictly
short of it at a page boundary (two records, `count = 1`) or when a
downstream record has disappeared (second fetch fails). -/
theorem C10_list_totals (st : List UserMapping) (f : Option (List Char))
    (si c si2 c2 : Nat) (fetch fetch2 : String → Option LdScimUserResponse) (b : String) :
    ((listUsersHandler st f si c fetch b).totalResults = (applyUserNameFilter st f).length ∧
     (listUsersHandler st f si c fetch b).totalResults =
       (listUsersHandler st f si2 c2 fetch2 b).totalResults ∧
     (listUsersHandler st f si c fetch b).resources.length ≤
       (listUsersHandler st f si c fetch b).totalResults) ∧
    ((listUsersHandler
        [{ aliceId := "a1", aliceExternalId := none, ldId := "ld1", ldUserName := "u1" },
         { aliceId := "a2", aliceExternalId := none, ldId := "ld2", ldUserName := "u2" }]
        none 1 1
        (fun i => some { id := i, externalId := none, userName := "u", name := none,
                         active := none, meta := none, ext := none })
        ("/b")).totalResults = 2 ∧
     (listUsersHandler
        [{ aliceId := "a1", aliceExternalId := none, ldId := "ld1", ldUserName := "u1" },
         { aliceId := "a2", aliceExternalId := none, ldId := "ld2", ldUserName := "u2" }]
        none 1 1
        (fun i => some { id := i, externalId := none, userName := "u", name := none,
                         active := none, meta := none, ext := none })
        ("/b")).resources.length = 1) ∧
    ((listUsersHandler
        [{ aliceId := "a1", aliceExternalId := none, ldId := "ld1", ldUserName := "u1" },
         { aliceId := "a2", aliceExternalId := none, ldId := "ld2", ldUserName := "u2" }]
        none 1 100
        (fun i => if i == ("ld1" : String)
                  then some { id := i, externalId := none, userName := "u", name := none,
                              active := none, meta := none, ext := none }
                  else none)
        ("/b")).totalResults = 2 ∧
     (listUsersHandler
        [{ aliceId := "a1", aliceExternalId := none, ldId := "ld1", ldUserName := "u1" },
         { aliceId := "a2", aliceExternalId := none, ldId := "ld2", ldUserName := "u2" }]
        none 1 100
        (fun i => if i == ("ld1" : String)
                  then some { id := i, externalId := none, userName := "u", name := none,
                              active := none, meta := none, ext := none }
                  else none)
        ("/b")).resources.length = 1) := by
  refine ⟨⟨rfl, rfl, ?_⟩, ⟨by decide, by decide⟩, ⟨by decide, by decide⟩⟩
  show ((((applyUserNameFilter st f).drop (si - 1)).take c).filterMap (fun m =>
      (fetch m.ldId).map (fun ldUser =>
        transformLdResponseToAliceResponse ldUser m.aliceId b))).length ≤
    (applyUserNameFilter st f).length
  refine le_trans (List.length_filterMap_le _ _) ?_
  rw [List.length_take, List.length_drop]
  exact le_trans (Nat.min_le_right _ _) (Nat.sub_le _ _)

/-- C9: the claim asserts that a patch operation on path `roles` is rewritten
into a *replace* operation.  The code keeps the incoming operation verb: an
`add` on `roles` is rewritten to an `add` on the LD extension path, not a
`replace`. -/
theorem C9_counterexample :
    let cfg : MappingConfig :=
      { roleMappings := [{ aliceRole := "ld-developer", ldCustomRoles := ["developer"] }],
        defaultRole := LdBuiltInRole.reader }
    let addOp : PatchOp :=
      { op := "add", path := some ("roles"),
        value := some (PatchValue.roleArr ["ld-developer"]) }
    translatePatchOp cfg addOp =
      { op := "add", path := some ldExtensionSchema,
        value := some (PatchValue.customRoleObj (["developer"])) } ∧
    ¬(translatePatchOp cfg addOp).op = ("replace") := by
  decide

/-- C9 (amended): an operation on path `roles` is rewritten — keeping its
original operation verb — into an operation on the LD extension path whose
value is `{customRole: mapped-roles}`, with the roles mapped rule-by-rule
through the configuration; an operation on any other path (including
`active`) is forwarded unchanged. -/
theorem C9_patch_translation (cfg : MappingConfig) (op : PatchOp) :
    (translatePatchOp cfg op).op = op.op ∧
    (¬op.path = some ("roles") → translatePatchOp cfg op = op) ∧
    (op.path = some ("roles") →
       translatePatchOp cfg op =
         { op := op.op, path := some ldExtensionSchema,
           value := some (PatchValue.customRoleObj (patchCustomRoles cfg op.value)) }) := by
  refine ⟨?_, ?_, ?_⟩
  · unfold translatePatchOp
    by_cases ha : op.path == some ("active")
    · simp [ha]
    · by_cases hr : op.path == some ("roles") <;> simp [ha, hr]
  · intro h
    have hr : (op.path == some ("roles")) = false := by simpa using h
    unfold translatePatchOp
    by_cases ha : op.path == some ("active") <;> simp [ha, hr]
  · intro h
    have ha : (op.path == some ("active")) = false := by
      simp [h]
    have hr : (op.path == some ("roles")) = true := by simpa using h
    unfold translatePatchOp
    simp [ha, hr]

/-- C1: the claim asserts that external-id uniqueness is backed by the
storage schema and therefore holds even for concurrent creates.  The
`user_mappings` schema declares *no* unique constraint on
`alice_external_id`; the only duplicate guard is the application-level
lookup at the top of `createUser`, which is separated from the insert by
awaited network calls.  In the interleaving where two create requests for
external id `E` both run that lookup against the same store before either
inserts, both conflict checks pass and both inserts go through, leaving two
persisted records for `E` — not exactly one. -/
theorem C1_counterexample :
    schemaEnforcesExternalIdUnique = false ∧
    hasExternalIdConflict []
      { userName := some ("u1@x"), externalId := some ("E"), name := none, active := none,
        emails := none, roles := none } = false ∧
    hasExternalIdConflict []
      { userName := some ("u2@x"), externalId := some ("E"), name := none, active := none,
        emails := none, roles := none } = false ∧
    countByExternalId
      (createUserMapping
        (createUserMapping []
          { aliceId := "a1", aliceExternalId := some ("E"), ldId := "ld1", ldUserName := "u1@x" })
        { aliceId := "a2", aliceExternalId := some ("E"), ldId := "ld2", ldUserName := "u2@x" })
      ("E") = 2 ∧
    ¬countByExternalId
      (createUserMapping
        (createUserMapping []
          { aliceId := "a1", aliceExternalId := some ("E"), ldId := "ld1", ldUserName := "u1@x" })
        { aliceId := "a2", aliceExternalId := some ("E"), ldId := "ld2", ldUserName := "u2@x" })
      ("E") = 1 := by
  decide

/-- C1 (amended): duplicate detection for the upstream external id is an
application-level lookup, not a storage constraint: for *sequential*
requests, a create with a fresh non-empty external id succeeds (201) and
persists exactly one record for that id, and a subsequent create carrying
the same external id fails with 409, makes no outbound call, and leaves the
store unchanged. -/
theorem C1_create_conflict (st : List UserMapping) (u u2 : ScimCoreUser)
    (cfg cfg2 : MappingConfig) (fid fid2 : String) (lc lc2 : LdScimUserResponse)
    (b e : String) (he : u.externalId = some e) (hne : ¬e = "")
    (h1 : getUserMappingByExternalId st e = none)
    (p : LdScimUserCreatePayload) (hp : transformAliceUserToLdUser u cfg = Except.ok p)
    (he2 : u2.externalId = some e) :
    (createUserHandler st u cfg fid none lc b).status = 201 ∧
    (createUserHandler st u cfg fid none lc b).store =
      st ++ [{ aliceId := fid, aliceExternalId := some e,
               ldId := lc.id, ldUserName := lc.userName }] ∧
    countByExternalId (createUserHandler st u cfg fid none lc b).store e = 1 ∧
    createUserHandler (createUserHandler st u cfg fid none lc b).store u2 cfg2 fid2 none lc2 b =
      { status := 409, store := (createUserHandler st u cfg fid none lc b).store,
        location := none, body := none, outboundCalls := 0 } := by
  have hbeq : (e == ("" : String)) = false := beq_eq_false_iff_ne.mpr hne
  have hconf : hasExternalIdConflict st u = false := by
    unfold hasExternalIdConflict
    rw [he]
    simp [h1]
  have hout : createUserHandler st u cfg fid none lc b =
      { status := 201
        store := st ++ [{ aliceId := fid, aliceExternalId := some e,
                          ldId := lc.id, ldUserName := lc.userName }]
        location := some (b ++ ("/Users/") ++ fid)
        body := some (transformLdResponseToAliceResponse lc fid b)
        outboundCalls := 2 } := by
    unfold createUserHandler
    rw [hconf]
    simp only [Bool.false_eq_true, if_false, hp]
    have hjs : jsOrNull u.externalId = some e := by
      simp [jsOrNull, strTruthy, he, hbeq]
    rw [hjs]
    rfl
  have hcount0 : countByExternalId st e = 0 := by
    unfold countByExternalId
    unfold getUserMappingByExternalId at h1
    rw [List.filter_eq_nil_iff.mpr (List.find?_eq_none.mp h1)]
    rfl
  have hrecmem :
      ({ aliceId := fid, aliceExternalId := some e, ldId := lc.id,
         ldUserName := lc.userName } : UserMapping) ∈
        st ++ [{ aliceId := fid, aliceExternalId := some e, ldId := lc.id,
                 ldUserName := lc.userName }] := by
    simp
  have hfound : (getUserMappingByExternalId
      (st ++ [{ aliceId := fid, aliceExternalId := some e, ldId := lc.id,
                ldUserName := lc.userName }]) e).isSome = true := by
    unfold getUserMappingByExternalId
    exact List.find?_isSome.mpr ⟨_, hrecmem, by simp⟩
  refine ⟨by rw [hout], by rw [hout], ?_, ?_⟩
  · rw [hout]
    unfold countByExternalId
    rw [List.filter_append]
    simp only [List.length_append]
    unfold countByExternalId at hcount0
    rw [hcount0]
    simp
  · have hconf2 : hasExternalIdConflict (createUserHandler st u cfg fid none lc b).store u2 =
        true := by
      unfold hasExternalIdConflict
      rw [he2, hout]
      simp only [Option.getD_some]
      rw [hfound]
      simp [strTruthy, hbeq]
    conv_lhs => rw [createUserHandler, hconf2]
    rw [hout]
    rfl

/-- C1 witness: the amended theorem at a concrete store and user — one 201
with one persisted record, then a 409 that leaves the store unchanged. -/
theorem C1_create_conflict_witness :
    (createUserHandler []
      { userName := some ("u1@x"), externalId := some ("E"), name := none, active := none,
        emails := none, roles := none }
      { roleMappings := [], defaultRole := LdBuiltInRole.reader } ("a1") none
      { id := "ld1", externalId := some ("E"), userName := "u1@x", name := none,
        active := none, meta := none, ext := none } ("/scim/v2")).status = 201 ∧
    (createUserHandler []
      { userName := some ("u1@x"), externalId := some ("E"), name := none, active := none,
        emails := none, roles := none }
      { roleMappings := [], defaultRole := LdBuiltInRole.reader } ("a1") none
      { id := "ld1", externalId := some ("E"), userName := "u1@x", name := none,
        active := none, meta := none, ext := none } ("/scim/v2")).store =
      [] ++ [{ aliceId := "a1", aliceExternalId := some ("E"), ldId := "ld1",
               ldUserName := "u1@x" }] ∧
    countByExternalId (createUserHandler []
      { userName := some ("u1@x"), externalId := some ("E"), name := none, active := none,
        emails := none, roles := none }
      { roleMappings := [], defaultRole := LdBuiltInRole.reader } ("a1") none
      { id := "ld1", externalId := some ("E"), userName := "u1@x", name := none,
        active := none, meta := none, ext := none } ("/scim/v2")).store ("E") = 1 ∧
    createUserHandler (createUserHandler []
      { userName := some ("u1@x"), externalId := some ("E"), name := none, active := none,
        emails := none, roles := none }
      { roleMappings := [], defaultRole := LdBuiltInRole.reader } ("a1") none
      { id := "ld1", externalId := some ("E"), userName := "u1@x", name := none,
        active := none, meta := none, ext := none } ("/scim/v2")).store
      { userName := some ("u2@x"), externalId := some ("E"), name := none, active := none,
        emails := none, roles := none }
      { roleMappings := [], defaultRole := LdBuiltInRole.reader } ("a2") none
      { id := "ld2", externalId := some ("E"), userName := "u2@x", name := none,
        active := none, meta := none, ext := none } ("/scim/v2") =
      { status := 409,
        store := (createUserHandler []
          { userName := some ("u1@x"), externalId := some ("E"), name := none, active := none,
            emails := none, roles := none }
          { roleMappings := [], defaultRole := LdBuiltInRole.reader } ("a1") none
          { id := "ld1", externalId := some ("E"), userName := "u1@x", name := none,
            active := none, meta := none, ext := none } ("/scim/v2")).store,
        location := none, body := none, outboundCalls := 0 } := by
  exact C1_create_conflict [] _ _ _ _ ("a1") ("a2") _ _ ("/scim/v2") ("E") rfl
    (by decide) (by decide) _ (by rfl) rfl

/-- Inserting into the deduplicating accumulator never yields the empty
list. -/
theorem setInsert_ne_nil (acc : List String) (x : String) : ¬setInsert acc x = [] := by
  unfold setInsert
  split
  · exact List.ne_nil_of_mem (by assumption)
  · simp

/-- `setInsertAll` returns the empty list only from an empty accumulator and
an empty insertion list. -/
theorem setInsertAll_eq_nil (acc : List String) (l : List String) :
    setInsertAll acc l = [] ↔ acc = [] ∧ l = [] := by
  induction l generalizing acc with
  | nil => simp [setInsertAll]
  | cons x xs ih =>
    unfold setInsertAll
    simp only [List.foldl_cons]
    rw [show (List.foldl setInsert (setInsert acc x) xs = setInsertAll (setInsert acc x) xs)
          from rfl, ih]
    constructor
    · rintro ⟨h1, -⟩
      exact absurd h1 (setInsert_ne_nil acc x)
    · rintro ⟨-, h2⟩
      cases h2

/-- The derived custom-role list is empty exactly when no upstream role
matches a rule carrying at least one downstream role. -/
theorem deriveCustomRoles_foldl_nil (cfg : MappingConfig) (rs : List ScimRole) :
    ∀ acc,
      (rs.foldl
        (fun acc r =>
          match cfg.roleMappings.find? (fun m => m.aliceRole == r.value) with
          | some m => setInsertAll acc m.ldCustomRoles
          | none => acc) acc) = [] ↔
      acc = [] ∧ ∀ r ∈ rs, roleMatchesNonEmptyRule cfg r = false := by
  induction rs with
  | nil => intro acc; simp
  | cons r rs ih =>
    intro acc
    simp only [List.foldl_cons]
    rw [ih]
    cases hf : cfg.roleMappings.find? (fun m => m.aliceRole == r.value) with
    | none =>
      simp only [roleMatchesNonEmptyRule, hf, List.mem_cons]
      constructor
      · rintro ⟨h1, h2⟩
        exact ⟨h1, fun r' hr' => by
          rcases hr' with rfl | hr'
          · simp [roleMatchesNonEmptyRule, hf]
          · exact h2 r' hr'⟩
      · rintro ⟨h1, h2⟩
        exact ⟨h1, fun r' hr' => h2 r' (Or.inr hr')⟩
    | some m =>
      rw [setInsertAll_eq_nil]
      simp only [roleMatchesNonEmptyRule, hf, List.mem_cons, Bool.not_eq_true,
        List.isEmpty_iff, List.isEmpty_eq_true]
      constructor
      · rintro ⟨⟨h1, hm⟩, h2⟩
        refine ⟨h1, fun r' hr' => ?_⟩
        rcases hr' with rfl | hr'
        · simp [roleMatchesNonEmptyRule, hf, hm]
        · exact h2 r' hr'
      · rintro ⟨h1, h2⟩
        have hm := h2 r (Or.inl rfl)
        simp only [roleMatchesNonEmptyRule, hf] at hm
        refine ⟨⟨h1, by simpa using hm⟩, fun r' hr' => h2 r' (Or.inr hr')⟩

/-- `deriveCustomRoles` yields `[]` iff no role matches a non-empty rule. -/
theorem deriveCustomRoles_eq_nil (rs : List ScimRole) (cfg : MappingConfig) :
    deriveCustomRoles rs cfg = [] ↔ ∀ r ∈ rs, roleMatchesNonEmptyRule cfg r = false := by
  unfold deriveCustomRoles
  rw [deriveCustomRoles_foldl_nil cfg rs []]
  simp

/-- A successful translation carries exactly the extension built from the
derived custom roles. -/
theorem transform_ext (u : ScimCoreUser) (cfg : MappingConfig) (p : LdScimUserCreatePayload)
    (h : transformAliceUserToLdUser u cfg = Except.ok p) :
    p.ext = buildLdExtension (extractCustomRolesFromAliceUser u cfg) cfg := by
  unfold transformAliceUserToLdUser at h
  cases hb : buildLdEmails u with
  | none => rw [hb] at h; cases h
  | some es =>
    rw [hb] at h
    simp only [Except.ok.injEq] at h
    rw [← h]
    rfl

/-- C4: the claim's "non-empty custom-role set iff at least one upstream role
matches a configured rule" fails when the matching rule maps to an *empty*
downstream role set: with the single rule `x → []` and role list `[x]`, a
role matches a configured rule yet the payload carries the default base role
and no custom-role attribute. -/
theorem C4_counterexample :
    transformAliceUserToLdUser
      { userName := some ("u@x"), externalId := none, name := none, active := none,
        emails := none, roles := some [{ value := "x", type := none }] }
      { roleMappings := [{ aliceRole := "x", ldCustomRoles := [] }],
        defaultRole := LdBuiltInRole.reader } =
      Except.ok
        { emails := [{ value := "u@x", primary := some true, type := some ("work") }]
          userName := some ("u@x"), active := true, name := none, externalId := none
          ext := { role := some LdBuiltInRole.reader, customRole := none } } ∧
    roleMatchesAnyRule
      { roleMappings := [{ aliceRole := "x", ldCustomRoles := [] }],
        defaultRole := LdBuiltInRole.reader }
      { value := "x", type := none } = true := by
  exact ⟨rfl, by decide⟩

/-- C4 (amended): a successful translation carries a non-empty custom-role
set iff at least one upstream role matches a configured rule *with a
non-empty downstream role set*; when no role matches such a rule the payload
carries the configured default base role and no custom-role attribute; the
output never carries both. -/
theorem C4_role_translation (u : ScimCoreUser) (cfg : MappingConfig)
    (p : LdScimUserCreatePayload) (h : transformAliceUserToLdUser u cfg = Except.ok p) :
    ((∃ r ∈ u.roles.getD [], roleMatchesNonEmptyRule cfg r = true) ↔
       ∃ l, p.ext.customRole = some l ∧ ¬l = []) ∧
    ((∀ r ∈ u.roles.getD [], roleMatchesNonEmptyRule cfg r = false) →
       p.ext.role = some cfg.defaultRole ∧ p.ext.customRole = none) ∧
    ¬(p.ext.role.isSome = true ∧ p.ext.customRole.isSome = true) := by
  have hext := transform_ext u cfg p h
  unfold extractCustomRolesFromAliceUser at hext
  by_cases hnil : deriveCustomRoles (u.roles.getD []) cfg = []
  · have hall := (deriveCustomRoles_eq_nil (u.roles.getD []) cfg).mp hnil
    rw [hnil] at hext
    have hext2 : p.ext = { role := some cfg.defaultRole, customRole := none } := by
      rw [hext]; rfl
    refine ⟨?_, fun _ => by rw [hext2]; exact ⟨rfl, rfl⟩, ?_⟩
    · rw [hext2]
      simp only [Option.some.injEq]
      constructor
      · rintro ⟨r, hr, htrue⟩
        rw [hall r hr] at htrue
        cases htrue
      · rintro ⟨l, hl, -⟩
        cases hl
    · rw [hext2]
      simp
  · have hlen : 0 < (deriveCustomRoles (u.roles.getD []) cfg).length :=
      List.length_pos.mpr hnil
    have hext2 : p.ext =
        { role := none, customRole := some (deriveCustomRoles (u.roles.getD []) cfg) } := by
      rw [hext]
      unfold buildLdExtension
      simp [hlen]
    refine ⟨?_, fun hall => absurd ((deriveCustomRoles_eq_nil _ cfg).mpr hall) hnil, ?_⟩
    · rw [hext2]
      simp only [Option.some.injEq]
      constructor
      · rintro -
        exact ⟨deriveCustomRoles (u.roles.getD []) cfg, rfl, hnil⟩
      · rintro -
        by_contra hno
        push_neg at hno
        have : ∀ r ∈ u.roles.getD [], roleMatchesNonEmptyRule cfg r = false := by
          intro r hr
          have := hno r hr
          revert this
          cases roleMatchesNonEmptyRule cfg r <;> simp
        exact hnil ((deriveCustomRoles_eq_nil _ cfg).mpr this)
    · rw [hext2]
      simp

/-- C4 witness: the amended theorem at the rule `dev → ["developer"]` and
role list `[dev]` — the payload carries a non-empty custom-role set. -/
theorem C4_role_translation_witness :
    ∃ l,
      (LdScimUserCreatePayload.ext
        { emails := [{ value := "u@x", primary := some true, type := some ("work") }]
          userName := some ("u@x"), active := true, name := none, externalId := none
          ext := { role := none, customRole := some ["developer"] } }).customRole = some l ∧
      ¬l = [] := by
  exact (C4_role_translation
    { userName := some ("u@x"), externalId := none, name := none, active := none,
      emails := none, roles := some [{ value := "dev", type := none }] }
    { roleMappings := [{ aliceRole := "dev", ldCustomRoles := ["developer"] }],
      defaultRole := LdBuiltInRole.reader }
    { emails := [{ value := "u@x", primary := some true, type := some ("work") }]
      userName := some ("u@x"), active := true, name := none, externalId := none
      ext := { role := none, customRole := some ["developer"] } }
    (by rfl)).1.mp ⟨{ value := "dev", type := none }, by decide, by decide⟩

/-- Whether the inbound user provides a non-empty e-mail list
(`aliceUser.emails && aliceUser.emails.length > 0`). -/
def emailsProvided (u : ScimCoreUser) : Bool :=
  match u.emails with
  | some es => es.length > 0
  | none => false

/-- C8: the claim asserts that a user with neither e-mails nor a username
fails with a `ValidationError` mapped to a 400.  The transformer throws a
plain `Error`, and `handleError` maps any non-`LdScimError` to a 500; the
create handler at such a user answers 500 — and only after the downstream
username search has already been issued (one outbound call), since the
search precedes the translation in `createUser`. -/
theorem C8_counterexample :
    let u : ScimCoreUser :=
      { userName := none, externalId := none, name := none, active := none,
        emails := none, roles := none }
    let cfg : MappingConfig := { roleMappings := [], defaultRole := LdBuiltInRole.reader }
    let ld : LdScimUserResponse :=
      { id := "ld9", externalId := none, userName := "x", name := none,
        active := none, meta := none, ext := none }
    transformAliceUserToLdUser u cfg = Except.error noEmailErrorMsg ∧
    (handleError (AppError.generic noEmailErrorMsg)).1 = 500 ∧
    ¬(handleError (AppError.generic noEmailErrorMsg)).1 = 400 ∧
    (createUserHandler [] u cfg ("f1") none ld ("/scim/v2")).status = 500 ∧
    (createUserHandler [] u cfg ("f1") none ld ("/scim/v2")).outboundCalls = 1 := by
  exact ⟨rfl, rfl, by decide, rfl, rfl⟩

/-- C8 (amended): the translation carries a provided e-mail list through
(defaulting each entry's `type` to `work`), synthesizes one primary `work`
e-mail from the username when no e-mail is provided, and with neither throws
an error that `handleError` maps to a *500* response (not 400); in the
create flow the downstream username search has already happened at that
point. -/
theorem C8_email_contract (u : ScimCoreUser) (cfg : MappingConfig) :
    (∀ es, u.emails = some es → 0 < es.length →
       transformAliceUserToLdUser u cfg =
         Except.ok
           { emails := es.map (fun e =>
               { value := e.value, primary := e.primary,
                 type := some (jsOrStr e.type ("work")) })
             userName := u.userName
             active := u.active.getD true
             name := u.name.map (fun n =>
               { givenName := n.givenName, familyName := n.familyName })
             externalId := jsOrNull u.externalId
             ext := buildLdExtension (extractCustomRolesFromAliceUser u cfg) cfg }) ∧
    (emailsProvided u = false → strTruthy u.userName = true →
       transformAliceUserToLdUser u cfg =
         Except.ok
           { emails := [{ value := u.userName.getD (""), primary := some true,
                          type := some ("work") }]
             userName := u.userName
             active := u.active.getD true
             name := u.name.map (fun n =>
               { givenName := n.givenName, familyName := n.familyName })
             externalId := jsOrNull u.externalId
             ext := buildLdExtension (extractCustomRolesFromAliceUser u cfg) cfg }) ∧
    (emailsProvided u = false → strTruthy u.userName = false →
       transformAliceUserToLdUser u cfg = Except.error noEmailErrorMsg ∧
       (handleError (AppError.generic noEmailErrorMsg)).1 = 500) := by
  refine ⟨?_, ?_, ?_⟩
  · intro es hes hlen
    unfold transformAliceUserToLdUser buildLdEmails extractCustomRolesFromAliceUser
    rw [hes]
    simp [Nat.pos_iff_ne_zero, List.length_eq_zero] at hlen
    have hlen2 : (es.length > 0) = True := by
      simp [List.length_pos, hlen]
    simp [hlen2]
  · intro hep hun
    unfold transformAliceUserToLdUser buildLdEmails extractCustomRolesFromAliceUser
    unfold emailsProvided at hep
    cases hes : u.emails with
    | none => simp [hun]
    | some es =>
      rw [hes] at hep
      have : es.length = 0 := by
        by_contra hne
        simp [Nat.pos_of_ne_zero hne] at hep
      simp [this, hun]
  · intro hep hun
    refine ⟨?_, rfl⟩
    unfold transformAliceUserToLdUser buildLdEmails
    unfold emailsProvided at hep
    cases hes : u.emails with
    | none => simp [hun]
    | some es =>
      rw [hes] at hep
      have : es.length = 0 := by
        by_contra hne
        simp [Nat.pos_of_ne_zero hne] at hep
      simp [this, hun]

/-- C8 witness: the amended contract at a user with one e-mail lacking a
`type` (defaulted to `work`), and at a user with only a username (e-mail
synthesized). -/
theorem C8_email_contract_witness :
    let cfg : MappingConfig := { roleMappings := [], defaultRole := LdBuiltInRole.reader }
    let u1 : ScimCoreUser :=
      { userName := some ("alice@x"), externalId := none, name := none, active := none,
        emails := some [{ value := "a@b", primary := none, type := none }], roles := none }
    let u2 : ScimCoreUser :=
      { userName := some ("alice@x"), externalId := none, name := none, active := none,
        emails := none, roles := none }
    transformAliceUserToLdUser u1 cfg =
      Except.ok
        { emails := [{ value := "a@b", primary := none, type := some ("work") }]
          userName := some ("alice@x"), active := true, name := none, externalId := none
          ext := { role := some LdBuiltInRole.reader, customRole := none } } ∧
    transformAliceUserToLdUser u2 cfg =
      Except.ok
        { emails := [{ value := "alice@x", primary := some true, type := some ("work") }]
          userName := some ("alice@x"), active := true, name := none, externalId := none
          ext := { role := some LdBuiltInRole.reader, customRole := none } } := by
  refine ⟨?_, ?_⟩
  · have h := (C8_email_contract
      { userName := some ("alice@x"), externalId := none, name := none, active := none,
        emails := some [{ value := "a@b", primary := none, type := none }], roles := none }
      { roleMappings := [], defaultRole := LdBuiltInRole.reader }).1
      [{ value := "a@b", primary := none, type := none }] rfl (by decide)
    rw [h]
    rfl
  · have h := (C8_email_contract
      { userName := some ("alice@x"), externalId := none, name := none, active := none,
        emails := none, roles := none }
      { roleMappings := [], defaultRole := LdBuiltInRole.reader }).2.1 (by decide) (by decide)
    rw [h]
    rfl

/-- C9 witness: the spec's own example through the amended theorem — a
`replace` on `roles` with value `[{value:"ld-developer"}]` under the rule
`ld-developer → ["developer"]` becomes a `replace` of the extension path
with `{customRole:["developer"]}`. -/
theorem C9_patch_translation_witness :
    translatePatchOp
      { roleMappings := [{ aliceRole := "ld-developer", ldCustomRoles := ["developer"] }],
        defaultRole := LdBuiltInRole.reader }
      { op := "replace", path := some ("roles"),
        value := some (PatchValue.roleArr ["ld-developer"]) } =
      { op := "replace", path := some ldExtensionSchema,
        value := some (PatchValue.customRoleObj (["developer"])) } := by
  have h := (C9_patch_translation
    { roleMappings := [{ aliceRole := "ld-developer", ldCustomRoles := ["developer"] }],
      defaultRole := LdBuiltInRole.reader }
    { op := "replace", path := some ("roles"),
      value := some (PatchValue.roleArr ["ld-developer"]) }).2.2 rfl
  rw [h]
  decide

end ScimGateway
